import Mathlib

/-!
Verification of the `automation` repository's backend (`app.py`) and of the
extraction-and-synchronization pipeline described by its specification.

The backend functions (`init_supabase`, `get_current_user`,
`authenticate_user`, `login`, `assess_performance`, `get_zoho_agent_data`)
are shallowly embedded from `src/app.py`: the Supabase tables become lists
of rows, HTTP exceptions become an `Except` error channel, and pandas
DataFrames become association lists keyed by column name.

The pipeline components (Page Harvester, Repository Synchronizer, Run
Orchestrator) have no source under `src/`; those definitions are modelled
from the specification and are marked as such in their doc comments.
-/

/-- An HTTP error, as raised by FastAPI's HTTPException: a status code and a
detail message. -/
structure HTTPErr where
  status : Nat
  detail : String
deriving Repr, DecidableEq

/-- A row of the `users` table, restricted to the columns the backend reads. -/
structure UserRow where
  name : String
  role : String
deriving Repr, DecidableEq

/-- Python truthiness of an optional string: `None` and the empty string are
falsy, every other string is truthy.  Mirrors `if not url or not key` in
`init_supabase`. -/
def truthy : Option String → Bool
  | none => false
  | some s => decide (s ≠ "")

/-- Python's `str.startswith`: the first `len(p)` characters of `s` equal
`p`. -/
def str_startswith (s p : String) : Bool :=
  s.data.take p.data.length == p.data

/-- The Supabase client as far as this model needs it: the URL and key it was
created from. -/
structure SupabaseClient where
  url : String
  key : String
deriving Repr, DecidableEq

/-- Embeds `init_supabase` (src/app.py lines 30-40).  The environment lookup
results for SUPABASE_URL and SUPABASE_KEY are passed in as options (`none`
means the variable is unset).  If either is missing or empty the ValueError is
caught by the surrounding handler and re-raised as HTTP 500; otherwise a URL
not starting with "https://" is prefixed before the client is created. -/
def init_supabase (url key : Option String) : Except HTTPErr SupabaseClient :=
  if truthy url && truthy key then
    let u := url.getD ""
    let u := if str_startswith u "https://" then u else "https://" ++ u
    .ok ⟨u, key.getD ""⟩
  else
    .error ⟨500, "Failed to connect to Supabase: Supabase URL or Key not provided"⟩

/-- The decoded body of a JWT as the backend reads it: the optional results of
`payload.get("sub")` and `payload.get("role")`. -/
structure JwtPayload where
  sub : Option String
  role : Option String
deriving Repr, DecidableEq

/-- The pair returned by `get_current_user` on success. -/
structure CurrentUser where
  name : String
  role : String
deriving Repr, DecidableEq

/-- Embeds `get_current_user` (src/app.py lines 97-106).  The argument is the
result of `jwt.decode(token, SECRET_KEY, ...)`: `none` when decoding raised,
`some payload` otherwise.  A missing `sub` or `role` raises HTTP 401 (the
inner HTTPException is caught by the blanket handler and re-raised with the
same status and detail). -/
def get_current_user (decoded : Option JwtPayload) : Except HTTPErr CurrentUser :=
  match decoded with
  | none => .error ⟨401, "Invalid token"⟩
  | some p =>
    match p.sub, p.role with
    | some u, some r => .ok ⟨u, r⟩
    | _, _ => .error ⟨401, "Invalid token"⟩

/-- One route of the FastAPI app: HTTP method, path, and whether its handler
declares the `Depends(get_current_user)` parameter. -/
structure Endpoint where
  method : String
  path : String
  requiresAuth : Bool
deriving Repr, DecidableEq

/-- The routes registered in src/app.py (lines 358-475), in source order, with
`requiresAuth` recording whether the handler takes
`current_user: dict = Depends(get_current_user)`. -/
def endpoints : List Endpoint :=
  [ ⟨"POST", "/login", false⟩
  , ⟨"GET", "/check_db", true⟩
  , ⟨"GET", "/kpis", true⟩
  , ⟨"POST", "/kpis", true⟩
  , ⟨"GET", "/performance", true⟩
  , ⟨"POST", "/performance", true⟩
  , ⟨"POST", "/performance/csv", true⟩
  , ⟨"GET", "/zoho", true⟩
  , ⟨"POST", "/goals", true⟩
  , ⟨"GET", "/goals", true⟩
  , ⟨"POST", "/feedback", true⟩
  , ⟨"GET", "/feedback", true⟩
  , ⟨"POST", "/feedback/respond", true⟩
  , ⟨"GET", "/notifications", true⟩
  , ⟨"POST", "/audio", true⟩
  , ⟨"GET", "/audio_assessments", true⟩
  , ⟨"POST", "/audio_assessments/notes", true⟩
  , ⟨"GET", "/assess_performance", true⟩ ]

/-- Embeds `authenticate_user` (src/app.py lines 108-116).  The `users` table
is queried for rows whose `name` column equals the supplied name; if any row
matches, the function returns `(True, name, role-of-first-match)` without ever
inspecting the password; otherwise `(False, None, None)`. -/
def authenticate_user (db : List UserRow) (name _password : String) :
    Bool × Option String × Option String :=
  match db.filter (fun u => u.name == name) with
  | [] => (false, none, none)
  | u :: _ => (true, some name, some u.role)

/-- The claims `jwt.encode` signs into the login token. -/
structure JwtClaims where
  sub : Option String
  role : Option String
deriving Repr, DecidableEq

/-- The JSON body returned by POST /login on success. -/
structure LoginResponse where
  access_token : JwtClaims
  token_type : String
  name : Option String
  role : Option String
deriving Repr, DecidableEq

/-- Embeds the POST /login handler (src/app.py lines 358-364): authenticate,
raise 401 on failure, otherwise sign a token whose claims are the returned
name and role. -/
def login (db : List UserRow) (name password : String) :
    Except HTTPErr LoginResponse :=
  let r := authenticate_user db name password
  if r.1 then
    .ok ⟨⟨r.2.1, r.2.2⟩, "bearer", r.2.1, r.2.2⟩
  else
    .error ⟨401, "Invalid credentials"⟩

/-- Claim C1: the login result is independent of the supplied password —
`authenticate_user` returns the same triple for any two passwords, and POST
/login issues a token for any password whenever a `users` row with that name
exists. -/
theorem authenticate_user_password_independent (db : List UserRow)
    (name p1 p2 : String) :
    authenticate_user db name p1 = authenticate_user db name p2 ∧
    ((∃ u ∈ db, u.name = name) →
      ∀ p, ∃ resp, login db name p = .ok resp) := by
  constructor
  · rfl
  · rintro ⟨u, hu, hname⟩ p
    have hmem : u ∈ db.filter (fun v => v.name == name) := by
      simp [List.mem_filter, hu, hname]
    match hfil : db.filter (fun v => v.name == name) with
    | [] => simp [hfil] at hmem
    | v :: vs =>
      exact ⟨⟨⟨some name, some v.role⟩, "bearer", some name, some v.role⟩,
        by simp [login, authenticate_user, hfil]⟩

/-- Witness for C1 at a concrete database. -/
theorem authenticate_user_password_independent_witness :
    authenticate_user [⟨"alice", "admin"⟩] "alice" "pw1" =
      authenticate_user [⟨"alice", "admin"⟩] "alice" "pw2" ∧
    ∃ resp, login [⟨"alice", "admin"⟩] "alice" "anything" = .ok resp :=
  ⟨(authenticate_user_password_independent [⟨"alice", "admin"⟩] "alice" "pw1" "pw2").1,
   (authenticate_user_password_independent [⟨"alice", "admin"⟩] "alice" "pw1" "pw2").2
     ⟨⟨"alice", "admin"⟩, by simp, rfl⟩ "anything"⟩

/-- Claim C2: every registered endpoint other than POST /login declares the
`get_current_user` dependency, and `get_current_user` raises HTTP 401 when
JWT decoding fails or the payload lacks `sub` or `role`, returning the
name/role pair otherwise. -/
theorem endpoints_require_auth :
    (∀ e ∈ endpoints, e.path ≠ "/login" → e.requiresAuth = true) ∧
    get_current_user none = .error ⟨401, "Invalid token"⟩ ∧
    (∀ p : JwtPayload, p.sub = none ∨ p.role = none →
      get_current_user (some p) = .error ⟨401, "Invalid token"⟩) ∧
    (∀ (p : JwtPayload) (u r : String), p.sub = some u → p.role = some r →
      get_current_user (some p) = .ok ⟨u, r⟩) := by
  refine ⟨?_, rfl, ?_, ?_⟩
  · intro e he hne
    fin_cases he <;> simp_all
  · rintro ⟨s, r⟩ h
    cases s <;> cases r <;> simp_all [get_current_user]
  · rintro ⟨s, r⟩ u v hs hr
    cases s <;> cases r <;> simp_all [get_current_user]

/-- Witness for C2 at concrete endpoints and payloads. -/
theorem endpoints_require_auth_witness :
    (⟨"GET", "/performance", true⟩ : Endpoint) ∈ endpoints ∧
    get_current_user (some ⟨none, some "agent"⟩) = .error ⟨401, "Invalid token"⟩ ∧
    get_current_user (some ⟨some "alice", some "agent"⟩) = .ok ⟨"alice", "agent"⟩ := by
  refine ⟨by simp [endpoints], ?_, ?_⟩
  · exact endpoints_require_auth.2.2.1 ⟨none, some "agent"⟩ (Or.inl rfl)
  · exact endpoints_require_auth.2.2.2 ⟨some "alice", some "agent"⟩ "alice" "agent" rfl rfl

/-- Counterexample for claim C3 as stated: with SUPABASE_URL supplied as the
empty string and SUPABASE_KEY supplied, the URL does not start with
"https://", yet no client is created — `init_supabase` raises HTTP 500
because Python truthiness treats the empty string like a missing value. -/
theorem init_supabase_empty_url_raises :
    init_supabase (some "") (some "key") =
      .error ⟨500, "Failed to connect to Supabase: Supabase URL or Key not provided"⟩ ∧
    ¬ ∃ c : SupabaseClient, init_supabase (some "") (some "key") = .ok c := by
  constructor
  · rfl
  · rintro ⟨c, hc⟩
    have h : init_supabase (some "") (some "key") =
        .error ⟨500, "Failed to connect to Supabase: Supabase URL or Key not provided"⟩ := rfl
    rw [h] at hc
    exact Except.noConfusion hc

/-- Claim C3 (amended): if the environment supplies no SUPABASE_URL or no
SUPABASE_KEY, or supplies either as the empty string, `init_supabase` raises
and never returns a client; when both are supplied and non-empty, a URL not
starting with "https://" has "https://" prepended before the client is
created. -/
theorem init_supabase_correct (url key : Option String) :
    ((truthy url = false ∨ truthy key = false) →
      ∃ e, init_supabase url key = .error e) ∧
    (∀ u k, url = some u → key = some k → u ≠ "" → k ≠ "" →
      init_supabase url key =
        .ok ⟨if str_startswith u "https://" then u else "https://" ++ u, k⟩) := by
  constructor
  · intro h
    refine ⟨⟨500, "Failed to connect to Supabase: Supabase URL or Key not provided"⟩, ?_⟩
    unfold init_supabase
    rcases h with h | h <;> simp [h]
  · rintro u k rfl rfl hu hk
    unfold init_supabase
    have hu' : truthy (some u) = true := by simp [truthy, hu]
    have hk' : truthy (some k) = true := by simp [truthy, hk]
    simp [hu', hk']

/-- Witness for C3: both branches exercised at concrete environments. -/
theorem init_supabase_correct_witness :
    (∃ e, init_supabase none (some "key") = .error e) ∧
    init_supabase (some "db.example.com") (some "key") =
      .ok ⟨"https://db.example.com", "key"⟩ := by
  constructor
  · exact (init_supabase_correct none (some "key")).1 (Or.inl rfl)
  · have h := (init_supabase_correct (some "db.example.com") (some "key")).2
      "db.example.com" "key" rfl rfl (by decide) (by decide)
    exact h.trans (congrArg Except.ok (by decide))

/-- A database row as the zoho model needs it: an association list from column
name to cell value (values are only compared for equality by the filter). -/
abbrev ZohoRow := List (String × String)

/-- The server-side filter `eq("ticket_owner", agent_name)`, guarded by the
Python-truthy `if agent_name:` of src/app.py line 216: the filter is applied
only when the agent name is supplied and non-empty; `None` and the empty
string read the whole table. -/
def zoho_filter (rows : List ZohoRow) (agent : Option String) : List ZohoRow :=
  if truthy agent then
    rows.filter (fun r => r.lookup "ticket_owner" == agent)
  else rows

/-- The `range(offset, offset + chunk_size - 1)` query: the slice of the
filtered row sequence starting at `off`, at most `sz` rows long. -/
def fetch_range (rows : List ZohoRow) (off sz : Nat) : List ZohoRow :=
  (rows.drop off).take sz

/-- The pagination loop of `get_zoho_agent_data` (src/app.py lines 211-224):
fetch a chunk of 1000 rows at the current offset, stop on an empty chunk,
stop after a short chunk, otherwise advance the offset by 1000. -/
def collect_chunks (rows : List ZohoRow) (off : Nat) : List ZohoRow :=
  if (fetch_range rows off 1000).isEmpty then []
  else if h : (fetch_range rows off 1000).length < 1000 then fetch_range rows off 1000
  else fetch_range rows off 1000 ++ collect_chunks rows (off + 1000)
termination_by rows.length - off
decreasing_by
  simp only [fetch_range, List.length_take, List.length_drop] at h
  omega

/-- Whether the DataFrame built from `rows` has column `c`: some record
carries that key. -/
def has_column (rows : List ZohoRow) (c : String) : Bool :=
  rows.any (fun r => r.any (fun kv => kv.1 == c))

/-- Embeds `get_zoho_agent_data` (src/app.py lines 209-232).  All matching
rows are accumulated chunk by chunk; a non-empty result whose DataFrame lacks
an `id` or `ticket_owner` column raises HTTPException(400), which the blanket
`except Exception` handler catches and re-raises as HTTP 500 with the 400's
text embedded in the detail; an empty result returns the empty list. -/
def get_zoho_agent_data (rows : List ZohoRow) (agent : Option String) :
    Except HTTPErr (List ZohoRow) :=
  let all_data := collect_chunks (zoho_filter rows agent) 0
  if all_data.isEmpty then .ok []
  else if has_column all_data "id" && has_column all_data "ticket_owner" then
    .ok all_data
  else
    .error ⟨500,
      "Error retrieving Zoho agent data: 400: Missing required columns in zoho_agent_data"⟩

/-- The pagination loop starting at offset `off` collects exactly the rows
from `off` on. -/
theorem collect_chunks_eq_drop (l : List ZohoRow) (off : Nat) :
    collect_chunks l off = l.drop off := by
  have H : ∀ (n off : Nat), l.length - off ≤ n → collect_chunks l off = l.drop off := by
    intro n
    induction n with
    | zero =>
      intro off h
      have hd : l.drop off = [] := List.drop_eq_nil_of_le (by omega)
      unfold collect_chunks
      simp [fetch_range, hd]
    | succ n ih =>
      intro off h
      unfold collect_chunks
      simp only [fetch_range]
      by_cases h0 : ((l.drop off).take 1000).isEmpty
      · rw [if_pos h0]
        rw [List.isEmpty_iff, List.take_eq_nil_iff] at h0
        rcases h0 with h0 | h0
        · omega
        · exact h0.symm
      · rw [if_neg h0]
        by_cases h1 : ((l.drop off).take 1000).length < 1000
        · rw [dif_pos h1]
          rw [List.length_take, List.length_drop] at h1
          exact List.take_of_length_le (by rw [List.length_drop]; omega)
        · rw [dif_neg h1]
          rw [List.length_take, List.length_drop] at h1
          have hlen : 1000 ≤ l.length - off := by omega
          have ih' := ih (off + 1000) (by omega)
          rw [ih']
          have : l.drop (off + 1000) = (l.drop off).drop 1000 := by
            rw [List.drop_drop]
          rw [this, List.take_append_drop]
  exact H (l.length - off) off le_rfl

/-- Claim C10: the chunked pagination of `get_zoho_agent_data` returns exactly
the row sequence of a single unchunked read of all matching rows, and zero
matching rows yield the empty list; however, when rows exist but the `id` or
`ticket_owner` column is absent the endpoint raises HTTP 500 (the inner 400
is swallowed by the blanket exception handler), exhibited here at a concrete
one-row table. -/
theorem get_zoho_agent_data_correct (rows : List ZohoRow) (agent : Option String) :
    collect_chunks (zoho_filter rows agent) 0 = zoho_filter rows agent ∧
    (zoho_filter rows agent = [] → get_zoho_agent_data rows agent = .ok []) ∧
    (zoho_filter rows agent ≠ [] →
      has_column (zoho_filter rows agent) "id" = true →
      has_column (zoho_filter rows agent) "ticket_owner" = true →
      get_zoho_agent_data rows agent = .ok (zoho_filter rows agent)) ∧
    get_zoho_agent_data [[("foo", "1")]] none =
      .error ⟨500,
        "Error retrieving Zoho agent data: 400: Missing required columns in zoho_agent_data"⟩ := by
  have hc := collect_chunks_eq_drop (zoho_filter rows agent) 0
  rw [List.drop_zero] at hc
  refine ⟨hc, ?_, ?_, ?_⟩
  · intro he
    have h0 : collect_chunks (zoho_filter rows agent) 0 = [] := by rw [hc, he]
    unfold get_zoho_agent_data
    simp [h0]
  · intro hne hid hto
    unfold get_zoho_agent_data
    simp [hc, List.isEmpty_iff, hne, hid, hto]
  · have h1 : collect_chunks (zoho_filter [[("foo", "1")]] none) 0 = [[("foo", "1")]] := by
      rw [collect_chunks_eq_drop]; rfl
    unfold get_zoho_agent_data
    rw [h1]
    simp [has_column]

/-- Witness for C10 at concrete tables: an empty filtered read, an unfiltered
read, and a read with the falsy empty-string agent name, which skips the
filter and returns the whole table. -/
theorem get_zoho_agent_data_correct_witness :
    get_zoho_agent_data [[("id", "1"), ("ticket_owner", "alice")]] (some "bob") = .ok [] ∧
    get_zoho_agent_data [[("id", "1"), ("ticket_owner", "alice")]] none =
      .ok [[("id", "1"), ("ticket_owner", "alice")]] ∧
    get_zoho_agent_data [[("id", "1"), ("ticket_owner", "alice")]] (some "") =
      .ok [[("id", "1"), ("ticket_owner", "alice")]] := by
  refine ⟨?_, ?_, ?_⟩
  · exact (get_zoho_agent_data_correct [[("id", "1"), ("ticket_owner", "alice")]]
      (some "bob")).2.1 (by decide)
  · exact (get_zoho_agent_data_correct [[("id", "1"), ("ticket_owner", "alice")]]
      none).2.2.1 (by decide) (by decide) (by decide)
  · have h := (get_zoho_agent_data_correct [[("id", "1"), ("ticket_owner", "alice")]]
      (some "")).2.2.1 (by decide) (by decide) (by decide)
    exact h.trans (congrArg Except.ok (by decide))

/-- A cell of the assessed DataFrame: a numeric value, a boolean pass flag, or
pandas NaN (the fill value for keys missing from a record). -/
inductive CellVal where
  | num (q : ℚ)
  | flag (b : Bool)
  | nan
deriving Repr, DecidableEq

/-- A performance record as passed to `assess_performance`: an association
list from column name to numeric value. -/
abbrev PerfRow := List (String × ℚ)

/-- An output record of `assess_performance`. -/
abbrev AssessedRow := List (String × CellVal)

/-- The fixed metric list of `assess_performance` (src/app.py lines 314-315).
It has ten entries and omits `aht`. -/
def assess_metrics : List String :=
  ["attendance", "quality_score", "product_knowledge", "contact_success_rate",
   "onboarding", "reporting", "talk_time", "resolution_rate", "csat", "call_volume"]

/-- Python's `kpis.get(metric, default)`. -/
def kpis_get (kpis : List (String × ℚ)) (m : String) (d : ℚ) : ℚ :=
  (kpis.lookup m).getD d

/-- The column set of the DataFrame built from a record list: every key
occurring in some record (membership is what the proofs use; column order is
immaterial to the claims). -/
def df_cols (rows : List PerfRow) : List String :=
  ((rows.map (fun r => r.map Prod.fst)).join).dedup

/-- The pass flag of one record for one metric (src/app.py line 318),
including the dead `aht` branch: a missing value is NaN, and a NaN comparison
is false in pandas. -/
def pass_val (kpis : List (String × ℚ)) (m : String) (r : PerfRow) : Bool :=
  match r.lookup m with
  | none => false
  | some v =>
    if m == "aht" then decide (v ≤ kpis_get kpis m 600)
    else decide (v ≥ kpis_get kpis m 50)

/-- Pandas column assignment restricted to one record: `df[key] = value`
overwrites an existing column of that name in place and otherwise appends a
new column at the end. -/
def set_cell (key : String) (v : CellVal) : AssessedRow → AssessedRow
  | [] => [(key, v)]
  | (k, w) :: t => if k == key then (key, v) :: t else (k, w) :: set_cell key v t

/-- One record of the initial DataFrame: every DataFrame column, holding the
record's value, or NaN when the key is absent from this record. -/
def init_row (cols : List String) (r : PerfRow) : AssessedRow :=
  cols.map (fun c => (c,
    match r.lookup c with
    | some v => CellVal.num v
    | none => CellVal.nan))

/-- The metric loop of `assess_performance` (src/app.py lines 316-318)
restricted to one record: for each metric in order, if the metric is a column
of the current DataFrame, assign the `_pass` column of that metric its pass
flag (overwriting any existing column of that name). -/
def add_pass_flags (kpis : List (String × ℚ)) (r : PerfRow) :
    AssessedRow → List String → AssessedRow
  | row, [] => row
  | row, m :: ms =>
    add_pass_flags kpis r
      (if (row.map Prod.fst).contains m then
        set_cell (m ++ "_pass") (CellVal.flag (pass_val kpis m r)) row
      else row) ms

/-- The numeric reading pandas uses when averaging a cell: numbers stand for
themselves, booleans for 1 and 0, and NaN for no value (skipped by mean). -/
def cell_num : CellVal → Option ℚ
  | .num v => some v
  | .flag b => some (if b then 1 else 0)
  | .nan => none

/-- The row mean `df[cols].mean(axis=1)` for one record: the mean of the
non-NaN numeric readings of the named cells, or NaN when every reading is
NaN. -/
def row_mean (row : AssessedRow) (cols : List String) : CellVal :=
  let vals := cols.filterMap (fun c => (row.lookup c).bind cell_num)
  if vals.isEmpty then CellVal.nan else CellVal.num (vals.sum / vals.length)

/-- The `* 100` of src/app.py line 321; NaN is absorbing. -/
def scale_100 : CellVal → CellVal
  | .num v => .num (v * 100)
  | c => c

/-- One output record of `assess_performance` (src/app.py lines 313-321):
start from the DataFrame record, run the metric loop, compute `pass_columns`
as the metrics whose `_pass` NAME is now a column (src/app.py line 319 — a
check that also picks up raw input columns that happen to carry such a name),
and when that list is non-empty assign `overall_score` the mean of those
columns times 100. -/
def assess_row (kpis : List (String × ℚ)) (cols : List String)
    (r : PerfRow) : AssessedRow :=
  let row1 := add_pass_flags kpis r (init_row cols r) assess_metrics
  let passCols := (assess_metrics.filter
    (fun m => (row1.map Prod.fst).contains (m ++ "_pass"))).map (fun m => m ++ "_pass")
  if passCols.isEmpty then row1
  else set_cell "overall_score" (scale_100 (row_mean row1 passCols)) row1

/-- Embeds `assess_performance` (src/app.py lines 310-322): an empty input
yields `[]`; otherwise every record is assessed against the shared DataFrame
column set. -/
def assess_performance (rows : List PerfRow) (kpis : List (String × ℚ)) :
    List AssessedRow :=
  if rows.isEmpty then []
  else rows.map (assess_row kpis (df_cols rows))

/-- A successful lookup means the key occurs among the record's keys. -/
theorem lookup_some_mem_keys {β : Type} (r : List (String × β)) (k : String)
    (v : β) (h : r.lookup k = some v) : k ∈ r.map Prod.fst := by
  induction r with
  | nil => simp at h
  | cons a t ih =>
    rcases a with ⟨k', v'⟩
    simp only [List.lookup] at h
    by_cases hk : (k == k') = true
    · simp [eq_of_beq hk]
    · rw [Bool.not_eq_true] at hk
      rw [hk] at h
      simp [ih h]

/-- A successful lookup returns an entry of the record. -/
theorem lookup_some_mem {β : Type} (r : List (String × β)) (k : String)
    (v : β) (h : r.lookup k = some v) : (k, v) ∈ r := by
  induction r with
  | nil => simp at h
  | cons a t ih =>
    rcases a with ⟨k', v'⟩
    simp only [List.lookup] at h
    by_cases hk : (k == k') = true
    · have hkk := eq_of_beq hk
      rw [hk] at h
      have hv : v' = v := Option.some.inj h
      subst hkk
      subst hv
      exact List.mem_cons_self _ _
    · rw [Bool.not_eq_true] at hk
      rw [hk] at h
      exact List.mem_cons_of_mem _ (ih h)

/-- Every key of every record is a DataFrame column. -/
theorem mem_df_cols {rows : List PerfRow} {r : PerfRow} {k : String}
    (hr : r ∈ rows) (hk : k ∈ r.map Prod.fst) :
    (df_cols rows).contains k = true := by
  have hmem : k ∈ df_cols rows := by
    simp only [df_cols, List.mem_dedup, List.mem_join]
    exact ⟨r.map Prod.fst, List.mem_map_of_mem _ hr, hk⟩
  simp [List.elem_iff, hmem]

/-- Every DataFrame column is a key of some record. -/
theorem df_cols_mem_exists {rows : List PerfRow} {k : String}
    (h : k ∈ df_cols rows) : ∃ r ∈ rows, k ∈ r.map Prod.fst := by
  simp only [df_cols, List.mem_dedup, List.mem_join, List.mem_map] at h
  rcases h with ⟨ks, ⟨r, hr, rfl⟩, hk⟩
  exact ⟨r, hr, hk⟩

/-- A pair drawn from a list zipped with its image under a map is a
matching input/output pair. -/
theorem snd_eq_of_mem_zip_map {α β : Type} (f : α → β) :
    ∀ (l : List α) (p : α × β), p ∈ l.zip (l.map f) → p.2 = f p.1 := by
  intro l
  induction l with
  | nil => intro p hp; simp at hp
  | cons a t ih =>
    intro p hp
    simp only [List.map_cons, List.zip_cons_cons, List.mem_cons] at hp
    rcases hp with rfl | hp
    · rfl
    · exact ih p hp

/-- Assigning a column makes its lookup the assigned value. -/
theorem set_cell_lookup_self (k : String) (v : CellVal) (row : AssessedRow) :
    (set_cell k v row).lookup k = some v := by
  induction row with
  | nil => simp [set_cell, List.lookup]
  | cons a t ih =>
    rcases a with ⟨k', w⟩
    by_cases h : (k' == k) = true
    · unfold set_cell
      rw [if_pos h]
      simp [List.lookup]
    · rw [Bool.not_eq_true] at h
      unfold set_cell
      rw [if_neg (by simp [h])]
      have hkk : (k == k') = false := by
        rw [beq_eq_false_iff_ne] at h ⊢
        exact fun hc => h hc.symm
      simp only [List.lookup]
      rw [hkk]
      exact ih

/-- Assigning one column leaves the lookup of every other column unchanged. -/
theorem set_cell_lookup_ne (k x : String) (v : CellVal) (row : AssessedRow)
    (hx : x ≠ k) : (set_cell k v row).lookup x = row.lookup x := by
  have hxk : (x == k) = false := by
    rw [beq_eq_false_iff_ne]
    exact hx
  induction row with
  | nil =>
    simp only [set_cell, List.lookup]
    rw [hxk]
  | cons a t ih =>
    rcases a with ⟨k', w⟩
    by_cases h : (k' == k) = true
    · have hk' := eq_of_beq h
      subst hk'
      unfold set_cell
      rw [if_pos h]
      simp only [List.lookup]
      rw [hxk]
    · rw [Bool.not_eq_true] at h
      unfold set_cell
      rw [if_neg (by simp [h])]
      simp only [List.lookup]
      by_cases hxx : (x == k') = true
      · rw [hxx]
      · rw [Bool.not_eq_true] at hxx
        rw [hxx]
        exact ih

/-- The keys after an assignment are the assigned key plus the old keys. -/
theorem mem_keys_set_cell (k x : String) (v : CellVal) (row : AssessedRow) :
    x ∈ (set_cell k v row).map Prod.fst ↔ x = k ∨ x ∈ row.map Prod.fst := by
  induction row with
  | nil => simp [set_cell]
  | cons a t ih =>
    rcases a with ⟨k', w⟩
    by_cases h : (k' == k) = true
    · have hk' := eq_of_beq h
      subst hk'
      unfold set_cell
      rw [if_pos h]
      simp
    · rw [Bool.not_eq_true] at h
      unfold set_cell
      rw [if_neg (by simp [h])]
      simp [ih]
      tauto

/-- Every entry after an assignment is the assigned entry or an old entry. -/
theorem mem_set_cell {k x : String} {v c : CellVal} {row : AssessedRow}
    (h : (x, c) ∈ set_cell k v row) : (x = k ∧ c = v) ∨ (x, c) ∈ row := by
  induction row with
  | nil =>
    simp [set_cell] at h
    exact Or.inl h
  | cons a t ih =>
    rcases a with ⟨k', w⟩
    by_cases hk : (k' == k) = true
    · unfold set_cell at h
      rw [if_pos hk] at h
      rcases List.mem_cons.mp h with h | h
      · rw [Prod.mk.injEq] at h
        exact Or.inl h
      · exact Or.inr (List.mem_cons_of_mem _ h)
    · rw [Bool.not_eq_true] at hk
      unfold set_cell at h
      rw [if_neg (by simp [hk])] at h
      rcases List.mem_cons.mp h with h | h
      · exact Or.inr (List.mem_cons.mpr (Or.inl h))
      · rcases ih h with h' | h'
        · exact Or.inl h'
        · exact Or.inr (List.mem_cons_of_mem _ h')

/-- The initial DataFrame record has exactly the DataFrame columns as keys. -/
theorem init_row_keys (cols : List String) (r : PerfRow) :
    (init_row cols r).map Prod.fst = cols := by
  induction cols with
  | nil => rfl
  | cons c t ih => simp [init_row] at ih ⊢; exact ih

/-- The metric loop only writes `_pass` columns: lookups of other keys are
unchanged. -/
theorem add_lookup_ne (kpis : List (String × ℚ)) (r : PerfRow) (x : String) :
    ∀ (ms : List String) (row : AssessedRow),
      (∀ m ∈ ms, x ≠ m ++ "_pass") →
      (add_pass_flags kpis r row ms).lookup x = row.lookup x := by
  intro ms
  induction ms with
  | nil => intro row _; rfl
  | cons m ms ih =>
    intro row hx
    unfold add_pass_flags
    by_cases hg : ((row.map Prod.fst).contains m) = true
    · rw [if_pos hg]
      rw [ih _ (fun m' hm' => hx m' (List.mem_cons_of_mem _ hm'))]
      exact set_cell_lookup_ne _ x _ row (hx m (List.mem_cons_self _ _))
    · rw [if_neg hg]
      exact ih _ (fun m' hm' => hx m' (List.mem_cons_of_mem _ hm'))

/-- Every entry after the metric loop is an old entry or a freshly written
pass flag of one of the looped metrics. -/
theorem add_mem (kpis : List (String × ℚ)) (r : PerfRow) :
    ∀ (ms : List String) (row : AssessedRow) (x : String) (c : CellVal),
      (x, c) ∈ add_pass_flags kpis r row ms →
      (x, c) ∈ row ∨
        ∃ m ∈ ms, x = m ++ "_pass" ∧ c = CellVal.flag (pass_val kpis m r) := by
  intro ms
  induction ms with
  | nil => intro row x c h; exact Or.inl h
  | cons m ms ih =>
    intro row x c h
    unfold add_pass_flags at h
    by_cases hg : ((row.map Prod.fst).contains m) = true
    · rw [if_pos hg] at h
      rcases ih _ x c h with h' | ⟨m', hm', hxx, hc⟩
      · rcases mem_set_cell h' with ⟨hxx, hc⟩ | h''
        · exact Or.inr ⟨m, List.mem_cons_self _ _, hxx, hc⟩
        · exact Or.inl h''
      · exact Or.inr ⟨m', List.mem_cons_of_mem _ hm', hxx, hc⟩
    · rw [if_neg hg] at h
      rcases ih _ x c h with h' | ⟨m', hm', hxx, hc⟩
      · exact Or.inl h'
      · exact Or.inr ⟨m', List.mem_cons_of_mem _ hm', hxx, hc⟩

/-- Under guard stability (no metric is itself the `_pass` name of a metric),
every key after the metric loop is an old key or the `_pass` name of a metric
that was an old key. -/
theorem add_keys_origin (kpis : List (String × ℚ)) (r : PerfRow) :
    ∀ (ms : List String) (row : AssessedRow) (x : String),
      (∀ m₁ ∈ ms, ∀ m₂ ∈ ms, m₁ ≠ m₂ ++ "_pass") →
      x ∈ (add_pass_flags kpis r row ms).map Prod.fst →
      x ∈ row.map Prod.fst ∨
        ∃ m ∈ ms, x = m ++ "_pass" ∧ m ∈ row.map Prod.fst := by
  intro ms
  induction ms with
  | nil => intro row x _ h; exact Or.inl h
  | cons m ms ih =>
    intro row x hnp h
    have hnp' : ∀ m₁ ∈ ms, ∀ m₂ ∈ ms, m₁ ≠ m₂ ++ "_pass" :=
      fun m₁ h₁ m₂ h₂ =>
        hnp m₁ (List.mem_cons_of_mem _ h₁) m₂ (List.mem_cons_of_mem _ h₂)
    unfold add_pass_flags at h
    by_cases hg : ((row.map Prod.fst).contains m) = true
    · rw [if_pos hg] at h
      have hgm : m ∈ row.map Prod.fst := by simpa [List.elem_iff] using hg
      rcases ih _ x hnp' h with h' | ⟨m', hm', hxx, hmem'⟩
      · rcases (mem_keys_set_cell _ x _ row).mp h' with hxx | h''
        · exact Or.inr ⟨m, List.mem_cons_self _ _, hxx, hgm⟩
        · exact Or.inl h''
      · rcases (mem_keys_set_cell _ m' _ row).mp hmem' with hxx' | h''
        · exact absurd hxx'
            (hnp m' (List.mem_cons_of_mem _ hm') m (List.mem_cons_self _ _))
        · exact Or.inr ⟨m', List.mem_cons_of_mem _ hm', hxx, h''⟩
    · rw [if_neg hg] at h
      rcases ih _ x hnp' h with h' | ⟨m', hm', hxx, hmem'⟩
      · exact Or.inl h'
      · exact Or.inr ⟨m', List.mem_cons_of_mem _ hm', hxx, hmem'⟩

/-- A metric that is a column of the record gets its pass flag written by the
metric loop and no later iteration disturbs it. -/
theorem add_lookup_pass (kpis : List (String × ℚ)) (r : PerfRow) :
    ∀ (ms : List String) (row : AssessedRow) (m : String),
      ms.Nodup →
      (∀ m₁ ∈ ms, ∀ m₂ ∈ ms, m₁ ++ "_pass" = m₂ ++ "_pass" → m₁ = m₂) →
      m ∈ ms → m ∈ row.map Prod.fst →
      (add_pass_flags kpis r row ms).lookup (m ++ "_pass") =
        some (CellVal.flag (pass_val kpis m r)) := by
  intro ms
  induction ms with
  | nil => intro row m _ _ hm; exact absurd hm (List.not_mem_nil m)
  | cons m₀ ms ih =>
    intro row m hnd hinj hm hkey
    have hnd' : ms.Nodup := (List.nodup_cons.mp hnd).2
    have hm₀ : m₀ ∉ ms := (List.nodup_cons.mp hnd).1
    have hinj' : ∀ m₁ ∈ ms, ∀ m₂ ∈ ms, m₁ ++ "_pass" = m₂ ++ "_pass" → m₁ = m₂ :=
      fun m₁ h₁ m₂ h₂ =>
        hinj m₁ (List.mem_cons_of_mem _ h₁) m₂ (List.mem_cons_of_mem _ h₂)
    unfold add_pass_flags
    rcases List.mem_cons.mp hm with rfl | hm'
    · have hg : ((row.map Prod.fst).contains m) = true := by
        simp [List.elem_iff, hkey]
      rw [if_pos hg]
      rw [add_lookup_ne kpis r (m ++ "_pass") ms _ ?hx]
      · exact set_cell_lookup_self _ _ row
      case hx =>
        intro m' hmm heq
        have hem : m = m' :=
          hinj m (List.mem_cons_self _ _) m' (List.mem_cons_of_mem _ hmm) heq
        rw [← hem] at hmm
        exact hm₀ hmm
    · by_cases hg : ((row.map Prod.fst).contains m₀) = true
      · rw [if_pos hg]
        exact ih _ m hnd' hinj' hm'
          ((mem_keys_set_cell _ m _ row).mpr (Or.inr hkey))
      · rw [if_neg hg]
        exact ih _ m hnd' hinj' hm' hkey

/-- The value assigned to `overall_score` is never a boolean flag. -/
theorem scale_row_mean_ne_flag (row : AssessedRow) (cols : List String)
    (b : Bool) : scale_100 (row_mean row cols) ≠ CellVal.flag b := by
  unfold row_mean
  by_cases h : (cols.filterMap (fun c => (row.lookup c).bind cell_num)).isEmpty
  · simp [h, scale_100]
  · simp [h, scale_100]

/-- Every boolean-flag entry after the metric loop over the ten metrics is
the pass flag of one of the ten. -/
theorem flag_mem_row1 {kpis : List (String × ℚ)} {cols : List String}
    {r : PerfRow} {k : String} {b : Bool}
    (h : (k, CellVal.flag b) ∈ add_pass_flags kpis r (init_row cols r) assess_metrics) :
    ∃ m ∈ assess_metrics, k = m ++ "_pass" ∧ b = pass_val kpis m r := by
  rcases add_mem kpis r assess_metrics (init_row cols r) k (CellVal.flag b) h with
    h0 | ⟨m, hm, hk, hc⟩
  · rcases List.mem_map.mp h0 with ⟨c, _, heq⟩
    rcases hl : r.lookup c with _ | v <;> rw [hl] at heq <;> simp at heq
  · exact ⟨m, hm, hk, CellVal.flag.inj hc⟩

/-- Every boolean-flag entry of an assessed record is the pass flag of one of
the ten metrics. -/
theorem flag_mem_assess_row {kpis : List (String × ℚ)} {cols : List String}
    {r : PerfRow} {k : String} {b : Bool}
    (h : (k, CellVal.flag b) ∈ assess_row kpis cols r) :
    ∃ m ∈ assess_metrics, k = m ++ "_pass" ∧ b = pass_val kpis m r := by
  simp only [assess_row] at h
  split at h
  · exact flag_mem_row1 h
  · rcases mem_set_cell h with ⟨_, hc⟩ | h'
    · exact absurd hc.symm (scale_row_mean_ne_flag _ _ b)
    · exact flag_mem_row1 h'

/-- A metric that is a DataFrame column yields a `_pass` entry holding its
pass flag in the assessed record. -/
theorem assess_row_lookup_pass {kpis : List (String × ℚ)} {cols : List String}
    {r : PerfRow} {m : String} (hm : m ∈ assess_metrics) (hkey : m ∈ cols) :
    (assess_row kpis cols r).lookup (m ++ "_pass") =
      some (CellVal.flag (pass_val kpis m r)) := by
  have h1 : (add_pass_flags kpis r (init_row cols r) assess_metrics).lookup
      (m ++ "_pass") = some (CellVal.flag (pass_val kpis m r)) := by
    apply add_lookup_pass kpis r assess_metrics _ m (by decide) (by decide) hm
    rw [init_row_keys]
    exact hkey
  simp only [assess_row]
  split
  · exact h1
  · rw [set_cell_lookup_ne _ _ _ _
      ((by decide : ∀ x ∈ assess_metrics, x ++ "_pass" ≠ "overall_score") m hm)]
    exact h1

/-- A pointwise `some` filterMap is a map. -/
theorem filterMap_all_some {α β : Type} (f : α → Option β) (g : α → β) :
    ∀ (l : List α), (∀ x ∈ l, f x = some (g x)) → l.filterMap f = l.map g := by
  intro l
  induction l with
  | nil => intro _; rfl
  | cons a t ih =>
    intro h
    rw [List.filterMap_cons, h a (List.mem_cons_self _ _),
      ih (fun x hx => h x (List.mem_cons_of_mem _ hx))]
    rfl

/-- Under the no-raw-`_pass`-columns proviso, the assessed record's
`overall_score` is the mean of the pass flags of the metrics present among
the DataFrame columns, times 100. -/
theorem assess_row_overall {kpis : List (String × ℚ)} {rows : List PerfRow}
    {r : PerfRow} (hr : r ∈ rows)
    (hclean : ∀ r' ∈ rows, ∀ m ∈ assess_metrics, (m ++ "_pass") ∉ r'.map Prod.fst)
    (hne : assess_metrics.filter (fun m => (df_cols rows).contains m) ≠ []) :
    (assess_row kpis (df_cols rows) r).lookup "overall_score" =
      some (CellVal.num
        (((assess_metrics.filter (fun m => (df_cols rows).contains m)).map
            (fun m => if pass_val kpis m r then (1 : ℚ) else 0)).sum /
          (assess_metrics.filter (fun m => (df_cols rows).contains m)).length
          * 100)) := by
  have hkeys : ∀ m ∈ assess_metrics,
      (((add_pass_flags kpis r (init_row (df_cols rows) r)
        assess_metrics).map Prod.fst).contains (m ++ "_pass")) =
      ((df_cols rows).contains m) := by
    intro m hm
    rw [Bool.eq_iff_iff]
    constructor
    · intro h
      have hmem : (m ++ "_pass") ∈ (add_pass_flags kpis r
          (init_row (df_cols rows) r) assess_metrics).map Prod.fst := by
        simpa [List.elem_iff] using h
      rcases add_keys_origin kpis r assess_metrics _ _ (by decide) hmem with
        h0 | ⟨m', hm', heq, hk0⟩
      · rw [init_row_keys] at h0
        rcases df_cols_mem_exists h0 with ⟨rec, hrec, hkrec⟩
        exact absurd hkrec (hclean rec hrec m hm)
      · rw [init_row_keys] at hk0
        have hem : m' = m :=
          (by decide : ∀ a ∈ assess_metrics, ∀ b ∈ assess_metrics,
            a ++ "_pass" = b ++ "_pass" → a = b) m' hm' m hm heq.symm
        rw [hem] at hk0
        simp [List.elem_iff, hk0]
    · intro h
      have hk : m ∈ df_cols rows := by simpa [List.elem_iff] using h
      have hl := add_lookup_pass kpis r assess_metrics
        (init_row (df_cols rows) r) m (by decide) (by decide) hm
        (by rw [init_row_keys]; exact hk)
      have hkm := lookup_some_mem_keys _ _ _ hl
      simpa [List.elem_iff] using hkm
  have hfilter : assess_metrics.filter (fun m =>
      ((add_pass_flags kpis r (init_row (df_cols rows) r)
        assess_metrics).map Prod.fst).contains (m ++ "_pass")) =
      assess_metrics.filter (fun m => (df_cols rows).contains m) :=
    List.filter_congr hkeys
  have hvals : ((assess_metrics.filter (fun m =>
      (df_cols rows).contains m)).map (fun m => m ++ "_pass")).filterMap
        (fun c => ((add_pass_flags kpis r (init_row (df_cols rows) r)
          assess_metrics).lookup c).bind cell_num) =
      (assess_metrics.filter (fun m => (df_cols rows).contains m)).map
        (fun m => if pass_val kpis m r then (1 : ℚ) else 0) := by
    rw [List.filterMap_map]
    apply filterMap_all_some
    intro m hmem
    have hmm : m ∈ assess_metrics := (List.mem_filter.mp hmem).1
    have hc : m ∈ df_cols rows := by
      simpa [List.elem_iff] using (List.mem_filter.mp hmem).2
    have hl := add_lookup_pass kpis r assess_metrics
      (init_row (df_cols rows) r) m (by decide) (by decide) hmm
      (by rw [init_row_keys]; exact hc)
    simp [Function.comp, hl, cell_num]
  have hne2 : (((assess_metrics.filter (fun m => (df_cols rows).contains m)).map
      (fun m => m ++ "_pass")).isEmpty) = false := by
    rw [Bool.eq_false_iff]
    intro hc
    rw [List.isEmpty_iff] at hc
    exact hne (List.map_eq_nil.mp hc)
  have hne3 : (((assess_metrics.filter (fun m => (df_cols rows).contains m)).map
      (fun m => if pass_val kpis m r then (1 : ℚ) else 0)).isEmpty) = false := by
    rw [Bool.eq_false_iff]
    intro hc
    rw [List.isEmpty_iff] at hc
    exact hne (List.map_eq_nil.mp hc)
  simp only [assess_row]
  rw [hfilter]
  rw [if_neg (fun hc => (by decide : ¬(false = true)) (hne2.symm.trans hc))]
  rw [set_cell_lookup_self]
  simp only [row_mean]
  rw [hvals]
  rw [if_neg (fun hc => (by decide : ¬(false = true)) (hne3.symm.trans hc))]
  simp [scale_100, List.length_map]

section

set_option allowUnsafeReducibility true

attribute [local semireducible] Rat.mul Rat.add Rat.inv

/-- Counterexample for claim C9 as stated: a record carrying a raw numeric
column named `csat_pass` is swept into the source's `pass_columns` (the
name-based check of src/app.py line 319), so at
`[{attendance: 60, csat_pass: 5}]` with empty KPIs the code's
`overall_score` is `mean(1, 5) * 100 = 300`, not the 100 that "100 times the
mean of the present pass flags" (the single true `attendance_pass` flag)
predicts. -/
theorem assess_performance_raw_pass_counterexample :
    ((assess_performance [[("attendance", (60 : ℚ)), ("csat_pass", (5 : ℚ))]] []).map
      (fun r => r.lookup "overall_score")) = [some (CellVal.num 300)] ∧
    some (CellVal.num (300 : ℚ)) ≠ some (CellVal.num (100 : ℚ)) := by
  constructor
  · decide
  · decide

end

/-- Claim C9 (amended): `assess_performance` creates pass flags only for the
ten metrics of its fixed list (which omits `aht`, so the `value <= threshold`
branch is unreachable and no `aht_pass` flag is ever produced), each present
flag holds iff the metric value is at least the KPI threshold (default 50),
an empty input yields [], and — provided no input record carries a raw column
named `_pass` of a listed metric, which the source's name-based
`pass_columns` check would sweep into the mean — `overall_score` is 100 times
the mean of the present pass flags. -/
theorem assess_performance_correct (rows : List PerfRow)
    (kpis : List (String × ℚ)) :
    assess_performance [] kpis = [] ∧
    "aht" ∉ assess_metrics ∧
    (∀ r' ∈ assess_performance rows kpis, ∀ k b, (k, CellVal.flag b) ∈ r' →
      ∃ m ∈ assess_metrics, k = m ++ "_pass") ∧
    (∀ r' ∈ assess_performance rows kpis, ∀ b, ("aht_pass", CellVal.flag b) ∉ r') ∧
    (∀ p ∈ rows.zip (assess_performance rows kpis), ∀ m ∈ assess_metrics, ∀ v,
      p.1.lookup m = some v →
      (m ++ "_pass", CellVal.flag (decide (v ≥ kpis_get kpis m 50))) ∈ p.2) ∧
    ((∀ r ∈ rows, ∀ m ∈ assess_metrics, (m ++ "_pass") ∉ r.map Prod.fst) →
      ∀ p ∈ rows.zip (assess_performance rows kpis),
      assess_metrics.filter (fun m => (df_cols rows).contains m) ≠ [] →
      ("overall_score", CellVal.num
        (((assess_metrics.filter (fun m => (df_cols rows).contains m)).map
            (fun m => if pass_val kpis m p.1 then (1 : ℚ) else 0)).sum /
          (assess_metrics.filter (fun m => (df_cols rows).contains m)).length
          * 100)) ∈ p.2) := by
  by_cases hrows : rows.isEmpty
  · rw [List.isEmpty_iff] at hrows
    subst hrows
    refine ⟨rfl, by decide, ?_, ?_, ?_, ?_⟩
    · intro r' hr'; simp [assess_performance] at hr'
    · intro r' hr'; simp [assess_performance] at hr'
    · intro p hp; simp at hp
    · intro _ p hp; simp at hp
  · have hout : assess_performance rows kpis =
        rows.map (assess_row kpis (df_cols rows)) := by
      unfold assess_performance
      rw [if_neg (by simp [hrows])]
    refine ⟨rfl, by decide, ?_, ?_, ?_, ?_⟩
    · intro r' hr' k b hkb
      rw [hout] at hr'
      rcases List.mem_map.mp hr' with ⟨r, _, rfl⟩
      rcases flag_mem_assess_row hkb with ⟨m, hm, hk, _⟩
      exact ⟨m, hm, hk⟩
    · intro r' hr' b hb
      rw [hout] at hr'
      rcases List.mem_map.mp hr' with ⟨r, _, rfl⟩
      rcases flag_mem_assess_row hb with ⟨m, hm, hk, _⟩
      exact (by decide : ∀ x ∈ assess_metrics, ¬("aht_pass" = x ++ "_pass")) m hm hk
    · intro p hp m hm v hv
      rw [hout] at hp
      have hp2 := snd_eq_of_mem_zip_map _ rows p hp
      have hp1 : p.1 ∈ rows := (List.of_mem_zip hp).1
      rw [hp2]
      have hcols : m ∈ df_cols rows := by
        simpa [List.elem_iff] using
          mem_df_cols hp1 (lookup_some_mem_keys p.1 m v hv)
      have haht : (m == "aht") = false :=
        (by decide : ∀ x ∈ assess_metrics, (x == "aht") = false) m hm
      have hpv : pass_val kpis m p.1 = decide (v ≥ kpis_get kpis m 50) := by
        simp only [pass_val, hv, haht, Bool.false_eq_true, if_false]
      rw [← hpv]
      exact lookup_some_mem _ _ _ (assess_row_lookup_pass hm hcols)
    · intro hclean p hp hne
      rw [hout] at hp
      have hp2 := snd_eq_of_mem_zip_map _ rows p hp
      have hp1 : p.1 ∈ rows := (List.of_mem_zip hp).1
      rw [hp2]
      exact lookup_some_mem _ _ _ (assess_row_overall hp1 hclean hne)

/-- Witness for C9: a one-record input with an `attendance` of 60 against an
empty KPI map yields an `attendance_pass` flag of `60 >= 50` and an
`overall_score` of the single-flag mean times 100. -/
theorem assess_performance_correct_witness :
    ("attendance_pass",
      CellVal.flag (decide ((60 : ℚ) ≥ kpis_get [] "attendance" 50))) ∈
      (([("attendance", (60 : ℚ))],
        assess_row [] (df_cols [[("attendance", (60 : ℚ))]])
          [("attendance", (60 : ℚ))]) : PerfRow × AssessedRow).2 ∧
    ("overall_score", CellVal.num
      (((assess_metrics.filter (fun m =>
          (df_cols [[("attendance", (60 : ℚ))]]).contains m)).map
          (fun m => if pass_val [] m [("attendance", (60 : ℚ))] then (1 : ℚ) else 0)).sum /
        (assess_metrics.filter (fun m =>
          (df_cols [[("attendance", (60 : ℚ))]]).contains m)).length * 100)) ∈
      (([("attendance", (60 : ℚ))],
        assess_row [] (df_cols [[("attendance", (60 : ℚ))]])
          [("attendance", (60 : ℚ))]) : PerfRow × AssessedRow).2 := by
  have hzip : (([("attendance", (60 : ℚ))],
      assess_row [] (df_cols [[("attendance", (60 : ℚ))]])
        [("attendance", (60 : ℚ))]) : PerfRow × AssessedRow) ∈
      [[("attendance", (60 : ℚ))]].zip
        (assess_performance [[("attendance", (60 : ℚ))]] []) := by
    unfold assess_performance
    simp
  constructor
  · exact (assess_performance_correct [[("attendance", (60 : ℚ))]] []).2.2.2.2.1
      _ hzip "attendance" (by decide) 60 (by decide)
  · exact (assess_performance_correct [[("attendance", (60 : ℚ))]] []).2.2.2.2.2
      (by decide) _ hzip (by decide)

/-- Modelled from the spec: a file materializing in the download directory,
identified by name and creation timestamp (spec section 3, Harvested File).
The Page Harvester's source is not under src/. -/
structure DownloadFile where
  name : String
  ctime : Nat
deriving Repr, DecidableEq

/-- Modelled from the spec: among the matching files of the download
directory, select the one with the most recent creation time (ties broken by
creation timestamp, latest wins). -/
def latest_file : List DownloadFile → Option DownloadFile
  | [] => none
  | f :: fs => some (fs.foldl (fun best g => if best.ctime ≤ g.ctime then g else best) f)

/-- Modelled from the spec: step 3-4 of the harvest algorithm.  For each
candidate trigger in document order, click it, wait the settle interval, and
scan the download directory (`filesAfter t` is the list of files with the
expected extension present after clicking trigger `t`); stop at the first
candidate that yields a file, otherwise try the next. -/
def try_triggers (filesAfter : Nat → List DownloadFile) :
    List Nat → Option DownloadFile
  | [] => none
  | t :: ts =>
    match latest_file (filesAfter t) with
    | some f => some f
    | none => try_triggers filesAfter ts

/-- Modelled from the spec: `harvest(session, target)` (spec section 4.2).
`timedOut` is whether the bounded wait of step 2 expired before any
export-trigger element appeared; `triggers` are the discovered candidate
triggers in document order.  A timeout or an exhausted candidate list yields
`none` (after a diagnostic screenshot), never an exception — the model is a
total function into `Option`. -/
def harvest (timedOut : Bool) (triggers : List Nat)
    (filesAfter : Nat → List DownloadFile) : Option DownloadFile :=
  if timedOut then none
  else try_triggers filesAfter triggers

/-- Claim C4: for every Target Descriptor, a harvest that finds zero matching
export files across all candidate triggers returns null and does not raise —
the harvest function is total and yields `none` whenever every candidate
trigger leaves the download directory without matching files. -/
theorem harvest_no_files_returns_none (timedOut : Bool) (triggers : List Nat)
    (filesAfter : Nat → List DownloadFile)
    (hempty : ∀ t ∈ triggers, filesAfter t = []) :
    harvest timedOut triggers filesAfter = none := by
  unfold harvest
  by_cases ht : timedOut
  · simp [ht]
  · rw [if_neg ht]
    induction triggers with
    | nil => rfl
    | cons t ts ih =>
      unfold try_triggers
      rw [hempty t (List.mem_cons_self t ts)]
      exact ih (fun x hx => hempty x (List.mem_cons_of_mem t hx))

/-- Witness for C4 at a concrete trigger list. -/
theorem harvest_no_files_returns_none_witness :
    harvest false [1, 2, 3] (fun _ => []) = none :=
  harvest_no_files_returns_none false [1, 2, 3] (fun _ => []) (fun _ _ => rfl)

/-- Modelled from the spec: a file of a mirror's `data/` directory, as a stem
and an extension (Normalized Artifacts are named
`{output_stem}.{canonical_extension}`, spec section 3).  The Repository
Synchronizer's source is not under src/. -/
structure FileName where
  stem : String
  ext : String
deriving Repr, DecidableEq

/-- Modelled from the spec: steps 2-3 of `sync` (spec section 4.4) applied to
a mirror's `data/` directory after the hard reset of step 1: delete every
existing canonical-format file (extension `cext`), then copy in every
artifact of the current Run Result. -/
def reconcile (cext : String) (dataDir : List FileName)
    (artifacts : List FileName) : List FileName :=
  dataDir.filter (fun f => !(f.ext == cext)) ++ artifacts

/-- Claim C5: after a successful sync, the mirror's `data/` directory contains
exactly the run's Normalized Artifacts among canonical-format files — every
pre-existing canonical-format file is removed (full replace, never a merge),
so a canonical file survives only by being one of the run's artifacts. -/
theorem sync_full_replace (cext : String) (dataDir artifacts : List FileName)
    (hc : ∀ a ∈ artifacts, a.ext = cext) :
    (reconcile cext dataDir artifacts).filter (fun f => f.ext == cext) = artifacts ∧
    (∀ f ∈ dataDir, f.ext = cext → f ∈ reconcile cext dataDir artifacts →
      f ∈ artifacts) := by
  constructor
  · unfold reconcile
    rw [List.filter_append]
    have h1 : (dataDir.filter (fun f => !(f.ext == cext))).filter
        (fun f => f.ext == cext) = [] := by
      rw [List.filter_eq_nil_iff]
      intro f hf
      rcases List.mem_filter.mp hf with ⟨_, hne⟩
      simpa using hne
    have h2 : artifacts.filter (fun f => f.ext == cext) = artifacts := by
      rw [List.filter_eq_self]
      intro a ha
      simp [hc a ha]
    rw [h1, h2, List.nil_append]
  · intro f _ hfc hmem
    rcases List.mem_append.mp hmem with h | h
    · rcases List.mem_filter.mp h with ⟨_, hne⟩
      simp [hfc] at hne
    · exact h

/-- Witness for C5 at a concrete mirror state: a stale canonical file `old`
disappears, a non-canonical `readme` survives, and the canonical survivor
`fresh` is exactly the run's artifact. -/
theorem sync_full_replace_witness :
    (reconcile "xlsx" [⟨"fresh", "xlsx"⟩, ⟨"readme", "md"⟩]
        [⟨"fresh", "xlsx"⟩]).filter (fun f => f.ext == "xlsx") = [⟨"fresh", "xlsx"⟩] ∧
    (⟨"fresh", "xlsx"⟩ : FileName) ∈ [(⟨"fresh", "xlsx"⟩ : FileName)] := by
  have h := sync_full_replace "xlsx" [⟨"fresh", "xlsx"⟩, ⟨"readme", "md"⟩]
    [⟨"fresh", "xlsx"⟩] (by decide)
  exact ⟨h.1, h.2 ⟨"fresh", "xlsx"⟩ (by decide) rfl (by decide)⟩

/-- Claim C6: repository sync is idempotent — reconciling a second time with
the unchanged Run Result leaves the `data/` directory unchanged, so the
second commit has an empty diff and is a no-op. -/
theorem sync_idempotent (cext : String) (dataDir artifacts : List FileName)
    (hc : ∀ a ∈ artifacts, a.ext = cext) :
    reconcile cext (reconcile cext dataDir artifacts) artifacts =
      reconcile cext dataDir artifacts := by
  unfold reconcile
  rw [List.filter_append]
  have h2 : artifacts.filter (fun f => !(f.ext == cext)) = [] := by
    rw [List.filter_eq_nil_iff]
    intro a ha
    simp [hc a ha]
  rw [h2, List.append_nil, List.filter_filter]
  congr 1
  apply List.filter_congr
  intro f _
  simp

/-- Witness for C6 at a concrete mirror state. -/
theorem sync_idempotent_witness :
    reconcile "xlsx"
      (reconcile "xlsx" [⟨"old", "xlsx"⟩, ⟨"readme", "md"⟩] [⟨"fresh", "xlsx"⟩])
      [⟨"fresh", "xlsx"⟩] =
    reconcile "xlsx" [⟨"old", "xlsx"⟩, ⟨"readme", "md"⟩] [⟨"fresh", "xlsx"⟩] :=
  sync_idempotent "xlsx" [⟨"old", "xlsx"⟩, ⟨"readme", "md"⟩]
    [⟨"fresh", "xlsx"⟩] (by decide)

/-- Modelled from the spec: the run-level states of the orchestrator (spec
section 4.5).  The Run Orchestrator's source is not under src/. -/
inductive RunState where
  | INIT
  | AUTHENTICATED
  | HARVESTING
  | SYNCING
  | SYNCING_SKIPPED
  | FAILED
  | DONE
deriving Repr, DecidableEq

/-- Modelled from the spec: the observable effects of one run — the sequence
of run-level states traversed and the number of repository commits and pushes
performed. -/
structure RunTrace where
  states : List RunState
  commits : Nat
  pushes : Nat
deriving Repr, DecidableEq

/-- Modelled from the spec: the run-level state machine (spec section 4.5).
Authentication failure is terminal; an empty Run Result skips the sync phase
entirely (no commits, no pushes for either repository); otherwise each of the
two repositories receives one commit and one push. -/
def run_orchestrator (authOk : Bool) (runResult : List FileName) : RunTrace :=
  if !authOk then
    ⟨[.INIT, .AUTHENTICATED, .FAILED], 0, 0⟩
  else if runResult.isEmpty then
    ⟨[.INIT, .AUTHENTICATED, .HARVESTING, .SYNCING_SKIPPED, .DONE], 0, 0⟩
  else
    ⟨[.INIT, .AUTHENTICATED, .HARVESTING, .SYNCING, .DONE], 2, 2⟩

/-- Claim C7: in every run whose Run Result is empty, the synchronization
phase never executes — zero commits and zero pushes for either repository —
and the run passes through SYNCING_SKIPPED immediately before DONE. -/
theorem empty_run_skips_sync (authOk : Bool) (runResult : List FileName)
    (hauth : authOk = true) (hempty : runResult = []) :
    (run_orchestrator authOk runResult).commits = 0 ∧
    (run_orchestrator authOk runResult).pushes = 0 ∧
    (run_orchestrator authOk runResult).states =
      [.INIT, .AUTHENTICATED, .HARVESTING, .SYNCING_SKIPPED, .DONE] := by
  subst hauth
  subst hempty
  exact ⟨rfl, rfl, rfl⟩

/-- Witness for C7 at the concrete empty run. -/
theorem empty_run_skips_sync_witness :
    (run_orchestrator true []).commits = 0 ∧
    (run_orchestrator true []).pushes = 0 ∧
    (run_orchestrator true []).states =
      [.INIT, .AUTHENTICATED, .HARVESTING, .SYNCING_SKIPPED, .DONE] :=
  empty_run_skips_sync true [] rfl rfl

/-- Modelled from the spec: the per-target loop of the Run Orchestrator
(spec sections 4.5 and 7).  `outcome t` is the result of harvesting and
normalizing target `t`: an artifact, or the error swallowed at the
harvester/normalizer boundary.  A failing target contributes no artifact and
one log line; processing always continues with the remaining targets. -/
def process_targets (outcome : String → Except String FileName) :
    List String → List FileName × List String
  | [] => ([], [])
  | t :: ts =>
    let rest := process_targets outcome ts
    match outcome t with
    | .ok a => (a :: rest.1, rest.2)
    | .error e => (rest.1, ("Failed to process " ++ t ++ ": " ++ e) :: rest.2)

/-- Claim C8: per-target failures are isolated — for every configured target
list, the Run Result is exactly the artifacts of the successful targets (so
one target's error never aborts the others), a failing target is surfaced
only as its omission plus a log line, and every successful target's artifact
is present regardless of the other targets' outcomes. -/
theorem per_target_isolation (outcome : String → Except String FileName)
    (targets : List String) :
    (process_targets outcome targets).1 =
      targets.filterMap (fun t => (outcome t).toOption) ∧
    (∀ t ∈ targets, ∀ e, outcome t = .error e →
      ("Failed to process " ++ t ++ ": " ++ e) ∈ (process_targets outcome targets).2) ∧
    (∀ t ∈ targets, ∀ a, outcome t = .ok a →
      a ∈ (process_targets outcome targets).1) := by
  induction targets with
  | nil => exact ⟨rfl, by simp, by simp⟩
  | cons t ts ih =>
    refine ⟨?_, ?_, ?_⟩
    · unfold process_targets
      rcases ho : outcome t with e | a <;>
        simp [List.filterMap_cons, ho, Except.toOption, ih.1]
    · intro x hx e hxe
      unfold process_targets
      rcases List.mem_cons.mp hx with rfl | hx
      · rw [hxe]
        simp
      · rcases ho : outcome t with e' | a' <;> simp [ho, ih.2.1 x hx e hxe]
    · intro x hx a hxa
      unfold process_targets
      rcases List.mem_cons.mp hx with rfl | hx
      · rw [hxa]
        simp
      · rcases ho : outcome t with e' | a' <;> simp [ho, ih.2.2 x hx a hxa]

/-- Witness for C8: two targets, the first failing and the second succeeding —
the Run Result still carries the second target's artifact and the failure is
logged. -/
theorem per_target_isolation_witness :
    ("Failed to process " ++ "page_a" ++ ": " ++ "timeout") ∈
      (process_targets
        (fun t => if t == "page_a" then .error "timeout" else .ok ⟨t, "xlsx"⟩)
        ["page_a", "page_b"]).2 ∧
    (⟨"page_b", "xlsx"⟩ : FileName) ∈
      (process_targets
        (fun t => if t == "page_a" then .error "timeout" else .ok ⟨t, "xlsx"⟩)
        ["page_a", "page_b"]).1 := by
  constructor
  · exact (per_target_isolation
      (fun t => if t == "page_a" then .error "timeout" else .ok ⟨t, "xlsx"⟩)
      ["page_a", "page_b"]).2.1 "page_a" (by decide) "timeout" rfl
  · exact (per_target_isolation
      (fun t => if t == "page_a" then .error "timeout" else .ok ⟨t, "xlsx"⟩)
      ["page_a", "page_b"]).2.2 "page_b" (by decide) ⟨"page_b", "xlsx"⟩ rfl
